import Mathlib

/-!
Shallow embedding of the resilience layer of the AWS-Agent backend:
the circuit breaker (`backend/pkg/circuitbreaker/breaker.go`), the retry
executor and jitter (`backend/pkg/retry/retry.go`) and the token-bucket
rate limiter (`backend/internal/middleware/ratelimit/ratelimit.go`).

Modelling conventions:
* `time.Time` / `time.Duration` are modelled as `Int` nanosecond counts;
  the zero `time.Time` is `0`, `t.Before(u)` is `t < u`, `t.IsZero()` is
  `t = 0`, `t.Add(d)` is `t + d`.
* Go `uint32` / `uint64` counters are `Nat` with an explicit wrap-around
  `% 2 ^ 32` / `% 2 ^ 64` on increment.
* mutex-guarded mutation becomes explicit state passing: each Go method
  becomes a pure function from the receiver's state to its new state.
* the nondeterministic draws of `rand.Float64()` (a value in `[0,1)`) and
  `rand.Intn(2)` are explicit parameters of `addJitter`.
-/

namespace AWSAgent

/-! ## Circuit breaker (`backend/pkg/circuitbreaker/breaker.go`) -/

/-- `State` from breaker.go: `StateClosed`, `StateHalfOpen`, `StateOpen`. -/
inductive BState where
  | Closed
  | HalfOpen
  | Open
deriving DecidableEq, Repr

/-- The two sentinel errors `ErrCircuitOpen` and `ErrTooManyRequests`. -/
inductive CBError where
  | ErrCircuitOpen
  | ErrTooManyRequests
deriving DecidableEq, Repr

/-- `counts` from breaker.go (all fields are Go `uint32`). -/
structure Counts where
  Requests : Nat
  TotalSuccesses : Nat
  TotalFailures : Nat
  ConsecutiveSuccesses : Nat
  ConsecutiveFailures : Nat
deriving DecidableEq, Repr

/-- The configuration fields of `CircuitBreaker` that never change after
`NewCircuitBreaker` (post-default values). -/
structure BreakerConfig where
  maxRequests : Nat
  interval : Int
  timeout : Int
  failureThreshold : Nat
  successThreshold : Nat
deriving DecidableEq, Repr

/-- The mutable (mutex-guarded) fields of `CircuitBreaker`. -/
structure CircuitBreaker where
  state : BState
  generation : Nat
  counts : Counts
  expiry : Int
deriving DecidableEq, Repr

/-- `uint32` increment with wrap-around. -/
def inc32 (n : Nat) : Nat := (n + 1) % 2 ^ 32

/-- `uint64` increment with wrap-around. -/
def inc64 (n : Nat) : Nat := (n + 1) % 2 ^ 64

/-- `toNewGeneration`: bump the generation, zero the counters and
recompute `expiry` from the (already updated) state. -/
def toNewGeneration (cfg : BreakerConfig) (cb : CircuitBreaker) (now : Int) :
    CircuitBreaker :=
  let cb := { cb with generation := inc64 cb.generation, counts := ⟨0, 0, 0, 0, 0⟩ }
  match cb.state with
  | .Closed =>
      if cfg.interval = 0 then { cb with expiry := 0 }
      else { cb with expiry := now + cfg.interval }
  | .Open => { cb with expiry := now + cfg.timeout }
  | .HalfOpen => { cb with expiry := 0 }

/-- `setState`: no-op when the state is unchanged, otherwise assign the
new state and start a new generation. -/
def setState (cfg : BreakerConfig) (cb : CircuitBreaker) (s : BState) (now : Int) :
    CircuitBreaker :=
  if cb.state = s then cb
  else toNewGeneration cfg { cb with state := s } now

/-- The state-refreshing side effect of `currentState`: the lazy
Closed-interval rollover and the lazy Open→HalfOpen transition.  The Go
function returns `(cb.state, cb.generation)` of the breaker this
produces. -/
def currentState (cfg : BreakerConfig) (cb : CircuitBreaker) (now : Int) :
    CircuitBreaker :=
  match cb.state with
  | .Closed =>
      if cb.expiry ≠ 0 ∧ cb.expiry < now then toNewGeneration cfg cb now else cb
  | .Open =>
      if cb.expiry < now then setState cfg cb .HalfOpen now else cb
  | .HalfOpen => cb

/-- `onSuccess`: bump the success counters, clear consecutive failures,
and close the breaker from HalfOpen once the success threshold is met.
`state` is the state resolved by `currentState` at the call site. -/
def onSuccess (cfg : BreakerConfig) (state : BState) (cb : CircuitBreaker)
    (now : Int) : CircuitBreaker :=
  let cb := { cb with counts :=
    { cb.counts with
        TotalSuccesses := inc32 cb.counts.TotalSuccesses
        ConsecutiveSuccesses := inc32 cb.counts.ConsecutiveSuccesses
        ConsecutiveFailures := 0 } }
  if state = .HalfOpen ∧ cb.counts.ConsecutiveSuccesses ≥ cfg.successThreshold then
    setState cfg cb .Closed now
  else cb

/-- `onFailure`: bump the failure counters, clear consecutive successes,
and open the breaker when the failure threshold is met in Closed or on
any failure in HalfOpen. -/
def onFailure (cfg : BreakerConfig) (state : BState) (cb : CircuitBreaker)
    (now : Int) : CircuitBreaker :=
  let cb := { cb with counts :=
    { cb.counts with
        TotalFailures := inc32 cb.counts.TotalFailures
        ConsecutiveFailures := inc32 cb.counts.ConsecutiveFailures
        ConsecutiveSuccesses := 0 } }
  if state = .Closed ∧ cb.counts.ConsecutiveFailures ≥ cfg.failureThreshold then
    setState cfg cb .Open now
  else if state = .HalfOpen then
    setState cfg cb .Open now
  else cb

/-- `beforeRequest`: resolve the current state, then reject with
`ErrCircuitOpen` when Open, reject with `ErrTooManyRequests` when
HalfOpen at the probe limit, and otherwise admit, counting the request.
Returns the new breaker, the admission generation and the error. -/
def beforeRequest (cfg : BreakerConfig) (cb : CircuitBreaker) (now : Int) :
    CircuitBreaker × Nat × Option CBError :=
  let cb := currentState cfg cb now
  if cb.state = .Open then
    (cb, cb.generation, some .ErrCircuitOpen)
  else if cb.state = .HalfOpen ∧ cb.counts.Requests ≥ cfg.maxRequests then
    (cb, cb.generation, some .ErrTooManyRequests)
  else
    ({ cb with counts := { cb.counts with Requests := inc32 cb.counts.Requests } },
     cb.generation, none)

/-- `afterRequest`: re-resolve the state; discard the outcome when the
generation no longer matches the admission generation, otherwise record
the success or failure. -/
def afterRequest (cfg : BreakerConfig) (cb : CircuitBreaker) (before : Nat)
    (success : Bool) (now : Int) : CircuitBreaker :=
  let cb := currentState cfg cb now
  if cb.generation ≠ before then cb
  else if success then onSuccess cfg cb.state cb now
  else onFailure cfg cb.state cb now

/-- The outcome of one `Execute` call, seen by the caller. -/
inductive ExecResult (E : Type) where
  | circuitOpen
  | tooManyRequests
  | fnResult (err : Option E)
deriving DecidableEq, Repr

/-- `Execute`: admit via `beforeRequest`; on rejection return the
sentinel without invoking `fn`; otherwise invoke `fn` (whose outcome is
the parameter `fnErr`, `none` = success) and record it via
`afterRequest`.  `now₁`/`now₂` are the clock readings of the two locked
sections; the returned `Nat` counts how many times `fn` was invoked. -/
def Execute {E : Type} (cfg : BreakerConfig) (cb : CircuitBreaker)
    (now₁ now₂ : Int) (fnErr : Option E) :
    CircuitBreaker × ExecResult E × Nat :=
  match beforeRequest cfg cb now₁ with
  | (cb, _, some .ErrCircuitOpen) => (cb, .circuitOpen, 0)
  | (cb, _, some .ErrTooManyRequests) => (cb, .tooManyRequests, 0)
  | (cb, gen, none) =>
      (afterRequest cfg cb gen fnErr.isNone now₂, .fnResult fnErr, 1)

/-! ## Retry executor (`backend/pkg/retry/retry.go`)

Errors are modelled as values of an arbitrary type `E` with decidable
equality; `errors.Is err target` on sentinel errors is `err = target`.
An operation is a map from the attempt number (starting at 1) to its
outcome, `none` meaning success.  The inter-attempt sleep and the log
calls have no effect on the returned error or on the number of
invocations, so they are omitted; the context is assumed non-cancelled
throughout (the claims below only concern that case). -/

/-- `isRetryable`: an empty allow-list makes every error retryable,
otherwise the error must match one of the sentinels. -/
def isRetryable {E : Type} [DecidableEq E] (err : E) (retryableErrors : List E) :
    Bool :=
  if retryableErrors.length = 0 then true
  else retryableErrors.any (fun r => err = r)

/-- The loop body of `Do` for attempts `attempt, attempt+1, ...` with
`remaining` attempts left (`remaining = maxAttempts - attempt + 1`).
Returns the error `Do` returns (`none` = success) and the number of
times the operation was invoked. -/
def doAux {E : Type} [DecidableEq E] (retryableErrors : List E)
    (op : Nat → Option E) (attempt : Nat) : Nat → Option E × Nat
  | 0 => (none, 0)
  | remaining + 1 =>
      match op attempt with
      | none => (none, 1)
      | some e =>
          if isRetryable e retryableErrors = false then (some e, 1)
          else if remaining = 0 then (some e, 1)
          else
            let p := doAux retryableErrors op (attempt + 1) remaining
            (p.1, p.2 + 1)

/-- `Do`: apply the `MaxAttempts` default and run the attempt loop from
attempt 1.  Returns the final error and the invocation count. -/
def Do {E : Type} [DecidableEq E] (maxAttempts : Nat) (retryableErrors : List E)
    (op : Nat → Option E) : Option E × Nat :=
  let m := if maxAttempts = 0 then 3 else maxAttempts
  doAux retryableErrors op 1 m

/-- `addJitter`: `r` models the draw of `rand.Float64()` (a value in
`[0,1)`) and `subtract` models `rand.Intn(2) == 0`.  `time.Duration` of
a non-negative float truncates, i.e. takes the floor. -/
def addJitter (duration : Int) (jitterFraction : ℚ) (r : ℚ)
    (subtract : Bool) : Int :=
  if jitterFraction ≤ 0 then duration
  else
    let jitter : Int := ⌊r * (duration : ℚ) * jitterFraction⌋
    if subtract then duration - jitter else duration + jitter

/-! ## Rate limiter (`backend/internal/middleware/ratelimit/ratelimit.go`)

We model one bucket's `allow` step (the per-key map lookup/creation only
selects which bucket the step runs on).  Go division of two
`time.Duration`s is `int64` division, which truncates toward zero:
`Int.tdiv`. -/

/-- `bucket` from ratelimit.go (tokens is a Go `int`). -/
structure Bucket where
  tokens : Int
  lastRefill : Int
deriving DecidableEq, Repr

/-- The bucket-level body of `RateLimiter.allow`: refill from elapsed
time (leaving `lastRefill` alone when no whole token accrued), then
consume `tokensPerReq` tokens if available. -/
def allow (maxTokens refillRate tokensPerReq : Int) (b : Bucket) (now : Int) :
    Bucket × Bool :=
  let elapsed := now - b.lastRefill
  let tokensToAdd := elapsed.tdiv refillRate
  let b :=
    if tokensToAdd > 0 then
      { tokens := min maxTokens (b.tokens + tokensToAdd), lastRefill := now }
    else b
  if b.tokens ≥ tokensPerReq then
    ({ b with tokens := b.tokens - tokensPerReq }, true)
  else (b, false)

/-! ## Sanity checks on concrete inputs -/

example :
    currentState ⟨1, 0, 30, 5, 2⟩ ⟨.Open, 5, ⟨0, 0, 0, 0, 0⟩, 10⟩ 20 =
      ⟨.HalfOpen, 6, ⟨0, 0, 0, 0, 0⟩, 0⟩ := by decide

example :
    currentState ⟨1, 0, 30, 5, 2⟩ ⟨.Open, 5, ⟨0, 0, 0, 0, 0⟩, 10⟩ 10 =
      ⟨.Open, 5, ⟨0, 0, 0, 0, 0⟩, 10⟩ := by decide

example : addJitter 100 (1/10) (1/2) true = 95 := by norm_num [addJitter]

example : allow 5 10 1 ⟨3, 100⟩ 115 = (⟨3, 115⟩, true) := by decide

example : allow 5 10 1 ⟨0, 100⟩ 105 = (⟨0, 100⟩, false) := by decide

/-! ## Helper lemmas -/

/-- If every attempt in the window fails with a retryable error, the
attempt loop runs all `r + 1` remaining attempts and returns the last
attempt's error. -/
theorem doAux_all_retryable {E : Type} [DecidableEq E] (R : List E)
    (op : Nat → Option E) (a r : Nat)
    (h : ∀ i, a ≤ i → i ≤ a + r → ∃ e, op i = some e ∧ isRetryable e R = true) :
    doAux R op a (r + 1) = (op (a + r), r + 1) := by
  induction r generalizing a with
  | zero =>
      obtain ⟨e, he, hre⟩ := h a le_rfl (Nat.le_add_right a 0)
      simp [doAux, he, hre]
  | succ r ih =>
      obtain ⟨e, he, hre⟩ := h a le_rfl (Nat.le_add_right a (r + 1))
      have step := ih (a + 1) (fun i hi hi' => h i (Nat.le_of_succ_le hi)
        (by omega))
      have harg : a + 1 + r = a + (r + 1) := by omega
      rw [harg] at step
      rw [doAux]
      simp [he, hre, step]

/-! ## Claim theorems -/

/-- C1: the claim asserts `addJitter` always returns a non-negative
delay.  The code does not clamp the subtractive branch: with base delay
100ns, `jitterFraction = 2` and the random draws `rand.Float64() = 3/4`,
`rand.Intn(2) = 0`, the jitter magnitude is 150ns and the returned delay
is -50ns, a negative duration. -/
theorem addJitter_subtractive_negative :
    addJitter 100 2 (3/4) true = -50 ∧ addJitter 100 2 (3/4) true < 0 := by
  constructor <;> norm_num [addJitter]

/-- C6: with a non-cancelled context and an operation failing with a
retryable error on every attempt, `Do` with `maxAttempts = n ≥ 1`
invokes the operation exactly `n` times and returns the `n`-th
invocation's error verbatim. -/
theorem Do_exhausts_attempts_returns_last_error {E : Type} [DecidableEq E]
    (n : Nat) (R : List E) (op : Nat → Option E) (hn : 1 ≤ n)
    (h : ∀ i, 1 ≤ i → i ≤ n → ∃ e, op i = some e ∧ isRetryable e R = true) :
    Do n R op = (op n, n) := by
  obtain ⟨m, rfl⟩ : ∃ m, n = m + 1 := ⟨n - 1, by omega⟩
  have hlast := doAux_all_retryable R op 1 m (fun i hi hi' => h i hi (by omega))
  rw [Nat.add_comm 1 m] at hlast
  simp only [Do]
  rw [if_neg (by omega)]
  exact hlast

theorem Do_exhausts_attempts_returns_last_error_witness :
    (1 : Nat) ≤ 3 ∧
    Do 3 [(7 : Nat)] (fun _ => some 7) = (some 7, 3) :=
  ⟨by norm_num,
    Do_exhausts_attempts_returns_last_error 3 [7] (fun _ => some 7)
      (by norm_num) (fun i _ _ => ⟨7, rfl, by decide⟩)⟩

/-- C7: with a non-empty allow-list and a first attempt failing with an
error matching none of the sentinels, `Do` invokes the operation exactly
once and returns that error, without using the remaining attempts. -/
theorem Do_nonretryable_fails_fast {E : Type} [DecidableEq E]
    (n : Nat) (R : List E) (op : Nat → Option E) (e : E) (hn : 1 ≤ n)
    (hR : R ≠ []) (hmem : e ∉ R) (h1 : op 1 = some e) :
    Do n R op = (some e, 1) := by
  have hre : isRetryable e R = false := by
    simp only [isRetryable, List.length_eq_zero]
    rw [if_neg hR]
    have hne : ∀ x ∈ R, ¬e = x := fun x hx heq => hmem (heq ▸ hx)
    simpa using hne
  obtain ⟨m, rfl⟩ : ∃ m, n = m + 1 := ⟨n - 1, by omega⟩
  simp only [Do]
  rw [if_neg (by omega)]
  simp [doAux, h1, hre]

theorem Do_nonretryable_fails_fast_witness :
    (1 : Nat) ≤ 5 ∧ ([(3 : Nat)] ≠ []) ∧ (7 : Nat) ∉ [(3 : Nat)] ∧
    Do 5 [(3 : Nat)] (fun _ => some 7) = (some 7, 1) :=
  ⟨by norm_num, by decide, by decide,
    Do_nonretryable_fails_fast 5 [3] (fun _ => some 7) 7 (by norm_num)
      (by decide) (by decide) rfl⟩

/-- C10: an empty allow-list classifies every error as retryable, so
`Do` with an empty allow-list never fails fast on classification: when
every attempt fails, all `n` attempts are used. -/
theorem isRetryable_empty_retries_all {E : Type} [DecidableEq E] (e : E)
    (n : Nat) (op : Nat → Option E) (hn : 1 ≤ n)
    (hfail : ∀ i, 1 ≤ i → i ≤ n → (op i).isSome) :
    isRetryable e ([] : List E) = true ∧ (Do n ([] : List E) op).2 = n := by
  refine ⟨by simp [isRetryable], ?_⟩
  have h : ∀ i, 1 ≤ i → i ≤ n → ∃ e', op i = some e' ∧
      isRetryable e' ([] : List E) = true := by
    intro i hi hi'
    obtain ⟨e', he'⟩ := Option.isSome_iff_exists.mp (hfail i hi hi')
    exact ⟨e', he', by simp [isRetryable]⟩
  obtain ⟨m, rfl⟩ : ∃ m, n = m + 1 := ⟨n - 1, by omega⟩
  have := doAux_all_retryable ([] : List E) op 1 m
    (fun i hi hi' => h i hi (by omega))
  simp only [Do]
  rw [if_neg (by omega)]
  rw [this]

theorem isRetryable_empty_retries_all_witness :
    isRetryable (7 : Nat) ([] : List Nat) = true ∧
    (Do 4 ([] : List Nat) (fun i => some i)).2 = 4 :=
  isRetryable_empty_retries_all 7 4 (fun i => some i) (by norm_num)
    (fun i _ _ => rfl)

/-- C8: when the computed `tokensToAdd` is zero, `allow` leaves the
bucket's `lastRefill` timestamp unchanged (only the token count may
change), preserving fractional progress toward the next token. -/
theorem allow_zero_refill_preserves_lastRefill
    (maxTokens refillRate tokensPerReq : Int) (b : Bucket) (now : Int)
    (h : (now - b.lastRefill).tdiv refillRate = 0) :
    ((allow maxTokens refillRate tokensPerReq b now).1).lastRefill =
      b.lastRefill := by
  simp only [allow, h]
  norm_num
  split <;> rfl

theorem allow_zero_refill_preserves_lastRefill_witness :
    ((105 - (Bucket.mk 3 100).lastRefill).tdiv 10 = 0) ∧
    ((allow 5 10 1 (Bucket.mk 3 100) 105).1).lastRefill =
      (Bucket.mk 3 100).lastRefill :=
  ⟨by decide, allow_zero_refill_preserves_lastRefill 5 10 1 ⟨3, 100⟩ 105
    (by decide)⟩

/-- C9: `allow` preserves the bucket invariant `0 ≤ tokens ≤ capacity`
(with `tokensPerReq = 1` as set by the constructor): refill caps the
token count at capacity and a token is consumed only when at least one
is available. -/
theorem allow_tokens_invariant (maxTokens refillRate : Int) (b : Bucket)
    (now : Int) (h0 : 0 ≤ b.tokens) (h1 : b.tokens ≤ maxTokens) :
    0 ≤ ((allow maxTokens refillRate 1 b now).1).tokens ∧
      ((allow maxTokens refillRate 1 b now).1).tokens ≤ maxTokens := by
  simp only [allow]
  split <;> rename_i hadd <;> split <;> rename_i hcons <;>
    simp_all <;> omega

theorem allow_tokens_invariant_witness :
    (0 ≤ (Bucket.mk 3 100).tokens ∧ (Bucket.mk 3 100).tokens ≤ 5) ∧
    (0 ≤ ((allow 5 10 1 (Bucket.mk 3 100) 195).1).tokens ∧
      ((allow 5 10 1 (Bucket.mk 3 100) 195).1).tokens ≤ 5) :=
  ⟨⟨by decide, by decide⟩,
    allow_tokens_invariant 5 10 ⟨3, 100⟩ 195 (by decide) (by decide)⟩

/-- C2 counterexample: a completion with a stale admission generation
does not leave the breaker's entire state unchanged.  Breaker Open with
generation 5 and expiry 10; the completion (admitted in generation 3)
arrives at time 20: the lazy refresh inside `afterRequest` performs the
Open→HalfOpen transition, changing state, generation and expiry even
though the outcome itself is discarded. -/
theorem afterRequest_stale_changes_breaker :
    (currentState ⟨1, 0, 30, 5, 2⟩ ⟨.Open, 5, ⟨0, 0, 0, 0, 0⟩, 10⟩ 20).generation ≠ 3 ∧
    afterRequest ⟨1, 0, 30, 5, 2⟩ ⟨.Open, 5, ⟨0, 0, 0, 0, 0⟩, 10⟩ 3 true 20 ≠
      ⟨.Open, 5, ⟨0, 0, 0, 0, 0⟩, 10⟩ := by
  decide

/-- C2 (amended): when the re-resolved generation differs from the
admission generation, `afterRequest` records nothing — the resulting
breaker is exactly the one produced by the clock-driven state refresh
(`currentState`) alone, independent of whether the completion succeeded;
in particular, when that refresh makes no change, the breaker is
entirely unchanged. -/
theorem afterRequest_stale_is_refresh_only (cfg : BreakerConfig)
    (cb : CircuitBreaker) (before : Nat) (success : Bool) (now : Int)
    (h : (currentState cfg cb now).generation ≠ before) :
    afterRequest cfg cb before success now = currentState cfg cb now := by
  simp [afterRequest, h]

theorem afterRequest_stale_is_refresh_only_witness :
    afterRequest ⟨1, 0, 30, 5, 2⟩ ⟨.Open, 5, ⟨0, 0, 0, 0, 0⟩, 10⟩ 3 false 20 =
      currentState ⟨1, 0, 30, 5, 2⟩ ⟨.Open, 5, ⟨0, 0, 0, 0, 0⟩, 10⟩ 20 :=
  afterRequest_stale_is_refresh_only ⟨1, 0, 30, 5, 2⟩
    ⟨.Open, 5, ⟨0, 0, 0, 0, 0⟩, 10⟩ 3 false 20 (by decide)

/-- C3 counterexample: a call arriving exactly at `now = expiry` does
NOT trigger the Open→HalfOpen transition.  Breaker Open with expiry 10:
at time 10 the breaker stays Open (the code requires `expiry < now`,
strictly) and the call is rejected with the circuit-open error rather
than admitted. -/
theorem open_at_exact_expiry_stays_open :
    (currentState ⟨1, 0, 30, 5, 2⟩ ⟨.Open, 7, ⟨0, 0, 0, 0, 0⟩, 10⟩ 10).state ≠
      BState.HalfOpen ∧
    (beforeRequest ⟨1, 0, 30, 5, 2⟩ ⟨.Open, 7, ⟨0, 0, 0, 0, 0⟩, 10⟩ 10).2.2 =
      some CBError.ErrCircuitOpen := by
  decide

/-- C3 (amended): for a breaker in state Open, any call arriving at a
time `now` with `expiry < now` (strictly after the expiry) transitions
the breaker to HalfOpen and, provided `maxRequests ≥ 1`, is admitted;
at `now = expiry` exactly the breaker remains Open and the call is
rejected. -/
theorem open_to_halfOpen_after_expiry (cfg : BreakerConfig)
    (cb : CircuitBreaker) (now : Int) (hs : cb.state = .Open)
    (hexp : cb.expiry < now) (hmax : 1 ≤ cfg.maxRequests) :
    (currentState cfg cb now).state = BState.HalfOpen ∧
    (beforeRequest cfg cb now).2.2 = none := by
  obtain ⟨st, gen, cts, exp⟩ := cb
  simp only at hs
  subst hs
  have hcs : currentState cfg ⟨.Open, gen, cts, exp⟩ now =
      toNewGeneration cfg ⟨.HalfOpen, gen, cts, exp⟩ now := by
    simp [currentState, hexp, setState]
  constructor
  · rw [hcs]
    simp [toNewGeneration]
  · simp only [beforeRequest, hcs]
    simp [toNewGeneration]
    rw [if_neg (by omega)]

theorem open_to_halfOpen_after_expiry_witness :
    (currentState ⟨1, 0, 30, 5, 2⟩ ⟨.Open, 7, ⟨0, 0, 0, 0, 0⟩, 10⟩ 11).state =
      BState.HalfOpen ∧
    (beforeRequest ⟨1, 0, 30, 5, 2⟩ ⟨.Open, 7, ⟨0, 0, 0, 0, 0⟩, 10⟩ 11).2.2 =
      none :=
  open_to_halfOpen_after_expiry ⟨1, 0, 30, 5, 2⟩
    ⟨.Open, 7, ⟨0, 0, 0, 0, 0⟩, 10⟩ 11 rfl (by decide) (by decide)

/-- C4: `Execute` with resolved state Open returns the distinct
circuit-open sentinel without invoking the wrapped function; with
resolved state HalfOpen at the probe limit it returns the distinct
too-many-requests sentinel without invoking the function; with resolved
state Closed the call is always admitted (the function runs exactly
once and its outcome is returned). -/
theorem Execute_admission {E : Type} [DecidableEq E] (cfg : BreakerConfig)
    (cb : CircuitBreaker) (now₁ now₂ : Int) (fnErr : Option E) :
    CBError.ErrCircuitOpen ≠ CBError.ErrTooManyRequests ∧
    ((currentState cfg cb now₁).state = .Open →
      Execute cfg cb now₁ now₂ fnErr =
        (currentState cfg cb now₁, .circuitOpen, 0)) ∧
    ((currentState cfg cb now₁).state = .HalfOpen →
      (currentState cfg cb now₁).counts.Requests ≥ cfg.maxRequests →
      Execute cfg cb now₁ now₂ fnErr =
        (currentState cfg cb now₁, .tooManyRequests, 0)) ∧
    ((currentState cfg cb now₁).state = .Closed →
      ∃ cb₂, Execute cfg cb now₁ now₂ fnErr = (cb₂, .fnResult fnErr, 1)) := by
  refine ⟨by decide, ?_, ?_, ?_⟩
  · intro h
    simp [Execute, beforeRequest, h]
  · intro h h2
    simp [Execute, beforeRequest, h, h2]
  · intro h
    simp only [Execute, beforeRequest]
    rw [if_neg (by simp [h]), if_neg (by simp [h])]
    exact ⟨_, rfl⟩

theorem Execute_admission_witness :
    (Execute (E := Nat) ⟨1, 0, 30, 5, 2⟩ ⟨.Open, 5, ⟨0, 0, 0, 0, 0⟩, 10⟩ 5 6
        (some 7) =
      (currentState ⟨1, 0, 30, 5, 2⟩ ⟨.Open, 5, ⟨0, 0, 0, 0, 0⟩, 10⟩ 5,
        .circuitOpen, 0)) ∧
    (Execute (E := Nat) ⟨1, 0, 30, 5, 2⟩ ⟨.HalfOpen, 5, ⟨1, 0, 0, 0, 0⟩, 0⟩ 5 6
        (some 7) =
      (currentState ⟨1, 0, 30, 5, 2⟩ ⟨.HalfOpen, 5, ⟨1, 0, 0, 0, 0⟩, 0⟩ 5,
        .tooManyRequests, 0)) ∧
    (∃ cb₂, Execute (E := Nat) ⟨1, 0, 30, 5, 2⟩ ⟨.Closed, 5, ⟨0, 0, 0, 0, 0⟩, 0⟩
        5 6 (some 7) = (cb₂, .fnResult (some 7), 1)) :=
  ⟨(Execute_admission ⟨1, 0, 30, 5, 2⟩ ⟨.Open, 5, ⟨0, 0, 0, 0, 0⟩, 10⟩ 5 6
      (some 7)).2.1 (by decide),
   (Execute_admission ⟨1, 0, 30, 5, 2⟩ ⟨.HalfOpen, 5, ⟨1, 0, 0, 0, 0⟩, 0⟩ 5 6
      (some 7)).2.2.1 (by decide) (by decide),
   (Execute_admission ⟨1, 0, 30, 5, 2⟩ ⟨.Closed, 5, ⟨0, 0, 0, 0, 0⟩, 0⟩ 5 6
      (some 7)).2.2.2 (by decide)⟩

/-- C5: the completion step relation — a failure recorded in Closed
opens the breaker exactly when the resulting consecutive-failure count
reaches the failure threshold; any single failure recorded in HalfOpen
opens it immediately; a success recorded in HalfOpen closes it exactly
when the resulting consecutive-success count reaches the success
threshold; and every one of these transitions zeroes all five counters
and increments the generation. -/
theorem breaker_transition_thresholds (cfg : BreakerConfig)
    (cb : CircuitBreaker) (now : Int) :
    (cb.state = .Closed →
      (((onFailure cfg cb.state cb now).state = .Open) ↔
        cfg.failureThreshold ≤ inc32 cb.counts.ConsecutiveFailures) ∧
      (cfg.failureThreshold ≤ inc32 cb.counts.ConsecutiveFailures →
        (onFailure cfg cb.state cb now).counts = ⟨0, 0, 0, 0, 0⟩ ∧
        (onFailure cfg cb.state cb now).generation = inc64 cb.generation)) ∧
    (cb.state = .HalfOpen →
      (onFailure cfg cb.state cb now).state = .Open ∧
      (onFailure cfg cb.state cb now).counts = ⟨0, 0, 0, 0, 0⟩ ∧
      (onFailure cfg cb.state cb now).generation = inc64 cb.generation) ∧
    (cb.state = .HalfOpen →
      (((onSuccess cfg cb.state cb now).state = .Closed) ↔
        cfg.successThreshold ≤ inc32 cb.counts.ConsecutiveSuccesses) ∧
      (cfg.successThreshold ≤ inc32 cb.counts.ConsecutiveSuccesses →
        (onSuccess cfg cb.state cb now).counts = ⟨0, 0, 0, 0, 0⟩ ∧
        (onSuccess cfg cb.state cb now).generation = inc64 cb.generation)) := by
  obtain ⟨st, gen, cts, exp⟩ := cb
  refine ⟨?_, ?_, ?_⟩
  · intro hs
    simp only at hs
    subst hs
    by_cases hth : cfg.failureThreshold ≤ inc32 cts.ConsecutiveFailures
    · simp [onFailure, setState, toNewGeneration, hth]
    · simp [onFailure, setState, toNewGeneration, hth]
  · intro hs
    simp only at hs
    subst hs
    simp [onFailure, setState, toNewGeneration]
  · intro hs
    simp only at hs
    subst hs
    by_cases hth : cfg.successThreshold ≤ inc32 cts.ConsecutiveSuccesses
    · simp [onSuccess, setState, toNewGeneration, hth]
      split <;> simp
    · simp [onSuccess, setState, toNewGeneration, hth]

theorem breaker_transition_thresholds_witness :
    ((((onFailure ⟨1, 0, 30, 2, 2⟩ BState.Closed
          ⟨.Closed, 4, ⟨3, 0, 1, 0, 1⟩, 0⟩ 9).state = BState.Open) ↔
        (2 : Nat) ≤ inc32 1) ∧
      ((2 : Nat) ≤ inc32 1 →
        (onFailure ⟨1, 0, 30, 2, 2⟩ BState.Closed
          ⟨.Closed, 4, ⟨3, 0, 1, 0, 1⟩, 0⟩ 9).counts = ⟨0, 0, 0, 0, 0⟩ ∧
        (onFailure ⟨1, 0, 30, 2, 2⟩ BState.Closed
          ⟨.Closed, 4, ⟨3, 0, 1, 0, 1⟩, 0⟩ 9).generation = inc64 4)) ∧
    ((onFailure ⟨1, 0, 30, 2, 2⟩ BState.HalfOpen
        ⟨.HalfOpen, 4, ⟨1, 0, 0, 0, 0⟩, 0⟩ 9).state = BState.Open ∧
      (onFailure ⟨1, 0, 30, 2, 2⟩ BState.HalfOpen
        ⟨.HalfOpen, 4, ⟨1, 0, 0, 0, 0⟩, 0⟩ 9).counts = ⟨0, 0, 0, 0, 0⟩ ∧
      (onFailure ⟨1, 0, 30, 2, 2⟩ BState.HalfOpen
        ⟨.HalfOpen, 4, ⟨1, 0, 0, 0, 0⟩, 0⟩ 9).generation = inc64 4) ∧
    ((((onSuccess ⟨1, 0, 30, 2, 2⟩ BState.HalfOpen
          ⟨.HalfOpen, 4, ⟨2, 1, 0, 1, 0⟩, 0⟩ 9).state = BState.Closed) ↔
        (2 : Nat) ≤ inc32 1) ∧
      ((2 : Nat) ≤ inc32 1 →
        (onSuccess ⟨1, 0, 30, 2, 2⟩ BState.HalfOpen
          ⟨.HalfOpen, 4, ⟨2, 1, 0, 1, 0⟩, 0⟩ 9).counts = ⟨0, 0, 0, 0, 0⟩ ∧
        (onSuccess ⟨1, 0, 30, 2, 2⟩ BState.HalfOpen
          ⟨.HalfOpen, 4, ⟨2, 1, 0, 1, 0⟩, 0⟩ 9).generation = inc64 4)) :=
  ⟨(breaker_transition_thresholds ⟨1, 0, 30, 2, 2⟩
      ⟨.Closed, 4, ⟨3, 0, 1, 0, 1⟩, 0⟩ 9).1 rfl,
   (breaker_transition_thresholds ⟨1, 0, 30, 2, 2⟩
      ⟨.HalfOpen, 4, ⟨1, 0, 0, 0, 0⟩, 0⟩ 9).2.1 rfl,
   (breaker_transition_thresholds ⟨1, 0, 30, 2, 2⟩
      ⟨.HalfOpen, 4, ⟨2, 1, 0, 1, 0⟩, 0⟩ 9).2.2 rfl⟩

end AWSAgent
